import Mathlib

/-!
Shallow embedding of src/dsa.py (Digital Maturity Assessment Streamlit app).

The numeric core of the script works on Python ints and floats:
ratings are ints in [1,5]; `round(sum(scores)/len(scores), 1)` rounds the
mean to one decimal, and `maturity_scale[round(x)]` looks a label up by the
mean rounded to an integer.  We model the numbers as exact rationals and
Python's builtin `round` (round to nearest, ties to even — the documented
CPython behaviour, exact on the half-integer and tenth values that arise
here) as `py_round` / `py_round1`.  Python dict lookup becomes `Option`
(`none` models a KeyError), and the one arithmetic failure mode, dividing
by the length of an empty list, becomes `Except.error PyErr.zeroDivision`.
-/

/-- The one runtime error the scoring code can raise on bad input:
`sum(scores) / len(scores)` with an empty list raises ZeroDivisionError. -/
inductive PyErr where
  | zeroDivision
deriving DecidableEq

/-- The `maturity_scale` dict of src/dsa.py lines 49-55, as a lookup:
`none` models the KeyError a missing key raises. -/
def maturity_scale (lvl : ℤ) : Option String :=
  if lvl = 1 then some "Initial"
  else if lvl = 2 then some "Developing"
  else if lvl = 3 then some "Established"
  else if lvl = 4 then some "Advanced"
  else if lvl = 5 then some "Leading"
  else none

/-- Python's builtin `round(x)` on exact values: nearest integer, ties to
even (CPython's documented banker's rounding). -/
def py_round (x : ℚ) : ℤ :=
  if Int.fract x < 1 / 2 then ⌊x⌋
  else if 1 / 2 < Int.fract x then ⌊x⌋ + 1
  else if ⌊x⌋ % 2 = 0 then ⌊x⌋ else ⌊x⌋ + 1

/-- Python's `round(x, 1)` on exact values: nearest tenth, ties to even. -/
def py_round1 (x : ℚ) : ℚ := (py_round (10 * x) : ℚ) / 10

/-- Line 110: `avg_score = round(sum(scores) / len(scores), 1)`.
An empty list raises ZeroDivisionError before `round` runs. -/
def avg_score (scores : List ℤ) : Except PyErr ℚ :=
  if scores.isEmpty then Except.error PyErr.zeroDivision
  else Except.ok (py_round1 ((scores.sum : ℚ) / (scores.length : ℚ)))

/-- Lines 112/121/127: `maturity_scale[round(s)]` — the label shown next to
a 1-decimal score `s`. -/
def label_of (s : ℚ) : Option String := maturity_scale (py_round s)

/-- Lines 118-122: the summary DataFrame, one row
(Dimension, Average Score, Maturity Level) per entry of `dimension_scores`,
in insertion order; a label lookup failure (KeyError) yields `none`. -/
def score_df : List (String × ℚ) → Option (List (String × ℚ × String))
  | [] => some []
  | p :: t =>
    match maturity_scale (py_round p.2), score_df t with
    | some lbl, some rows => some ((p.1, p.2, lbl) :: rows)
    | _, _ => none

/-- Lines 126: `overall_score = round(sum(vals) / len(vals), 1)` over the
per-dimension (already rounded) scores. -/
def overall_score (ds : List ℚ) : Except PyErr ℚ :=
  if ds.isEmpty then Except.error PyErr.zeroDivision
  else Except.ok (py_round1 (ds.sum / (ds.length : ℚ)))

/-- Lines 133-135 of `plot_radar`: `values = list(scores_dict.values())`
then `values += values[:1]` — the radial values actually plotted. -/
def plot_radar_values (ds : List (String × ℚ)) : List ℚ :=
  ds.map Prod.snd ++ (ds.map Prod.snd).take 1

/-- A CSV cell value: the history row mixes strings and numbers. -/
inductive PyVal where
  | s (v : String)
  | q (v : ℚ)
deriving DecidableEq

/-- Lines 200-205: the `data_row` dict, in insertion order.  Python's
`user_name if user_name else "Anonymous"` treats exactly the empty string
as falsy. -/
def data_row (now user_name : String) (ds : List (String × ℚ)) (overall : ℚ) :
    List (String × PyVal) :=
  ("Timestamp", PyVal.s now) ::
  ("User", PyVal.s (if user_name = "" then "Anonymous" else user_name)) ::
  (ds.map (fun p => (p.1 ++ " Score", PyVal.q p.2)) ++
    [("Overall Score", PyVal.q overall)])

/-! ### Helper lemmas about `py_round` and averaging -/

theorem py_round_ge (a : ℤ) (x : ℚ) (h : (a : ℚ) ≤ x) : a ≤ py_round x := by
  have hf : a ≤ ⌊x⌋ := Int.le_floor.mpr h
  unfold py_round
  split_ifs <;> omega

theorem py_round_le (x : ℚ) (b : ℤ) (h : x ≤ (b : ℚ)) : py_round x ≤ b := by
  have hfb : ⌊x⌋ ≤ b := by exact_mod_cast le_trans (Int.floor_le x) h
  have key : ¬ Int.fract x < 1 / 2 → ⌊x⌋ + 1 ≤ b := by
    intro hge
    have hxb : x < (b : ℚ) := by
      rcases lt_or_eq_of_le h with hlt | heq
      · exact hlt
      · exfalso
        apply hge
        rw [heq, Int.fract_intCast]
        norm_num
    have : ⌊x⌋ < b := Int.floor_lt.mpr hxb
    omega
  unfold py_round
  split_ifs with h1 h2 h3
  · exact hfb
  · exact key h1
  · exact hfb
  · exact key h1

theorem py_round_dist (x : ℚ) : |x - (py_round x : ℚ)| ≤ 1 / 2 := by
  have h0 : 0 ≤ Int.fract x := Int.fract_nonneg x
  have h1 : Int.fract x < 1 := Int.fract_lt_one x
  have hfr : Int.fract x = x - (⌊x⌋ : ℚ) := rfl
  unfold py_round
  split_ifs with ha hb hc <;>
    · rw [abs_le]
      constructor <;> push_cast <;> linarith

theorem py_round_nearest (x : ℚ) (n : ℤ) :
    |x - (py_round x : ℚ)| ≤ |x - (n : ℚ)| := by
  by_cases hn : n = py_round x
  · rw [hn]
  · have h1 : (1 : ℚ) ≤ |(py_round x : ℚ) - (n : ℚ)| := by
      have h1z : (1 : ℤ) ≤ |py_round x - n| := by
        rcases abs_cases (py_round x - n) with ⟨he, h0⟩ | ⟨he, h0⟩ <;> omega
      exact_mod_cast h1z
    have h2 := py_round_dist x
    have h3 : |(py_round x : ℚ) - (n : ℚ)| ≤ |(py_round x : ℚ) - x| + |x - (n : ℚ)| :=
      abs_sub_le _ x _
    have h4 : |(py_round x : ℚ) - x| = |x - (py_round x : ℚ)| := abs_sub_comm _ _
    linarith

theorem py_round_tie_even (x : ℚ) (h : Int.fract x = 1 / 2) : py_round x % 2 = 0 := by
  unfold py_round
  rw [h]
  norm_num
  split_ifs with hc
  · exact hc
  · omega

theorem int_sum_bounds (l : List ℤ) (h : ∀ s ∈ l, 1 ≤ s ∧ s ≤ 5) :
    (l.length : ℤ) ≤ l.sum ∧ l.sum ≤ 5 * l.length := by
  induction l with
  | nil => simp
  | cons a t ih =>
    have ha := h a (by simp)
    have ht := ih (fun s hs => h s (by simp [hs]))
    simp only [List.sum_cons, List.length_cons]
    push_cast
    omega

theorem rat_sum_bounds (l : List ℚ) (h : ∀ s ∈ l, 1 ≤ s ∧ s ≤ 5) :
    (l.length : ℚ) ≤ l.sum ∧ l.sum ≤ 5 * l.length := by
  induction l with
  | nil => simp
  | cons a t ih =>
    have ha := h a (by simp)
    have ht := ih (fun s hs => h s (by simp [hs]))
    simp only [List.sum_cons, List.length_cons]
    push_cast
    constructor <;> linarith [ha.1, ha.2, ht.1, ht.2]

theorem mean_bounds_int (l : List ℤ) (hne : l ≠ []) (h : ∀ s ∈ l, 1 ≤ s ∧ s ≤ 5) :
    1 ≤ (l.sum : ℚ) / (l.length : ℚ) ∧ (l.sum : ℚ) / (l.length : ℚ) ≤ 5 := by
  have hlen : 0 < (l.length : ℚ) := by
    have := List.length_pos.mpr hne
    exact_mod_cast this
  obtain ⟨hlo, hhi⟩ := int_sum_bounds l h
  have hlo' : (l.length : ℚ) ≤ (l.sum : ℚ) := by exact_mod_cast hlo
  have hhi' : (l.sum : ℚ) ≤ 5 * (l.length : ℚ) := by exact_mod_cast hhi
  constructor
  · rw [le_div_iff₀ hlen]
    linarith
  · rw [div_le_iff₀ hlen]
    linarith

theorem mean_bounds_rat (l : List ℚ) (hne : l ≠ []) (h : ∀ s ∈ l, 1 ≤ s ∧ s ≤ 5) :
    1 ≤ l.sum / (l.length : ℚ) ∧ l.sum / (l.length : ℚ) ≤ 5 := by
  have hlen : 0 < (l.length : ℚ) := by
    have := List.length_pos.mpr hne
    exact_mod_cast this
  obtain ⟨hlo, hhi⟩ := rat_sum_bounds l h
  constructor
  · rw [le_div_iff₀ hlen]
    linarith
  · rw [div_le_iff₀ hlen]
    linarith

theorem py_round1_bounds (x : ℚ) (h1 : 1 ≤ x) (h5 : x ≤ 5) :
    1 ≤ py_round1 x ∧ py_round1 x ≤ 5 := by
  have hg : (10 : ℤ) ≤ py_round (10 * x) := py_round_ge 10 (10 * x) (by push_cast; linarith)
  have hl : py_round (10 * x) ≤ (50 : ℤ) := py_round_le (10 * x) 50 (by push_cast; linarith)
  have hg' : (10 : ℚ) ≤ (py_round (10 * x) : ℚ) := by exact_mod_cast hg
  have hl' : (py_round (10 * x) : ℚ) ≤ 50 := by exact_mod_cast hl
  unfold py_round1
  constructor <;> linarith

theorem py_round_int_bounds (x : ℚ) (h1 : 1 ≤ x) (h5 : x ≤ 5) :
    1 ≤ py_round x ∧ py_round x ≤ 5 := by
  refine ⟨py_round_ge 1 x (by exact_mod_cast h1), py_round_le x 5 (by exact_mod_cast h5)⟩

theorem maturity_scale_isSome (n : ℤ) (h1 : 1 ≤ n) (h5 : n ≤ 5) :
    (maturity_scale n).isSome = true := by
  interval_cases n <;> rfl

theorem avg_score_ok (scores : List ℤ) (hne : scores ≠ []) :
    avg_score scores =
      Except.ok (py_round1 ((scores.sum : ℚ) / (scores.length : ℚ))) := by
  unfold avg_score
  rw [if_neg (by simpa using hne)]

theorem overall_score_ok (ds : List ℚ) (hne : ds ≠ []) :
    overall_score ds = Except.ok (py_round1 (ds.sum / (ds.length : ℚ))) := by
  unfold overall_score
  rw [if_neg (by simpa using hne)]

/-! ### Claim theorems -/

/-- C1, as written, is false of the code: aggregating the empty list of
ratings runs `sum(scores) / len(scores)` and fails with exactly the
division-by-zero arithmetic error the claim rules out; the script defines
no ValidationError. -/
theorem c1_counterexample : avg_score [] = Except.error PyErr.zeroDivision := rfl

/-- C1 (amended): for the empty sequence of ratings, dimension aggregation
fails with a division-by-zero error. -/
theorem c1_theorem (scores : List ℤ) (h : scores = []) :
    avg_score scores = Except.error PyErr.zeroDivision := by
  rw [h]
  rfl

theorem c1_witness : avg_score [] = Except.error PyErr.zeroDivision :=
  c1_theorem [] rfl

/-- C2, as written, is false of the code: a mean of 2.5 (ratings
[2,2,2,3,3,3]) is labelled via Python's `round`, which rounds ties to the
nearest even integer, so the label is "Developing" (level 2), not
"Established" (level 3) as round-half-up would give. -/
theorem c2_counterexample :
    avg_score [2, 2, 2, 3, 3, 3] = Except.ok (5 / 2) ∧
    label_of (5 / 2) = some "Developing" ∧
    label_of (5 / 2) ≠ some "Established" := by
  have h : label_of (5 / 2) = some "Developing" := by
    norm_num [label_of, py_round, Int.fract, maturity_scale]
  refine ⟨by norm_num [avg_score, py_round1, py_round, Int.fract], h, ?_⟩
  rw [h]
  decide

/-- C2 (amended): for every non-empty sequence of ratings in [1,5], the
MaturityLabel of a dimension score is obtained by rounding the (1-decimal)
mean to the nearest integer — |a - round(a)| ≤ |a - n| for every integer n —
with ties rounding half to even (a mean of 2.5 yields label 2,
"Developing"), and looking up that integer in the scale. -/
theorem c2_theorem (scores : List ℤ) (hne : scores ≠ [])
    (_hr : ∀ s ∈ scores, 1 ≤ s ∧ s ≤ 5) :
    ∃ a, avg_score scores = Except.ok a ∧
      label_of a = maturity_scale (py_round a) ∧
      (∀ n : ℤ, |a - (py_round a : ℚ)| ≤ |a - (n : ℚ)|) ∧
      (Int.fract a = 1 / 2 → py_round a % 2 = 0) :=
  ⟨_, avg_score_ok scores hne, rfl,
    fun n => py_round_nearest _ n, py_round_tie_even _⟩

theorem c2_witness :
    ∃ a, avg_score [2, 2, 2, 3, 3, 3] = Except.ok a ∧
      label_of a = maturity_scale (py_round a) ∧
      (∀ n : ℤ, |a - (py_round a : ℚ)| ≤ |a - (n : ℚ)|) ∧
      (Int.fract a = 1 / 2 → py_round a % 2 = 0) :=
  c2_theorem [2, 2, 2, 3, 3, 3] (by decide) (by decide)

/-- C3: the overall score is the 1-decimal rounding of the mean of the
already-rounded dimension scores: over the dimension scores {1.0, 5.0}
(e.g. from rating lists [1] and [5,5]) it is 3.0, labelled "Established",
and it differs from rounding the mean of all raw ratings (1+5+5)/3. -/
theorem c3_theorem :
    avg_score [1] = Except.ok 1 ∧
    avg_score [5, 5] = Except.ok 5 ∧
    overall_score [1, 5] = Except.ok 3 ∧
    label_of 3 = some "Established" ∧
    overall_score [1, 5] ≠ Except.ok (py_round1 ((1 + 5 + 5 : ℚ) / 3)) := by
  refine ⟨?_, ?_, ?_, ?_, ?_⟩ <;>
    norm_num [avg_score, overall_score, label_of, py_round1, py_round,
      Int.fract, maturity_scale]

/-- C4: for every non-empty integer rating sequence with values in [1,5],
the 1-decimal dimension average lies in the closed interval [1.0, 5.0]. -/
theorem c4_theorem (scores : List ℤ) (hne : scores ≠ [])
    (hr : ∀ s ∈ scores, 1 ≤ s ∧ s ≤ 5) :
    ∃ a, avg_score scores = Except.ok a ∧ 1 ≤ a ∧ a ≤ 5 := by
  obtain ⟨h1, h5⟩ := mean_bounds_int scores hne hr
  obtain ⟨hl, hu⟩ := py_round1_bounds _ h1 h5
  exact ⟨_, avg_score_ok scores hne, hl, hu⟩

theorem c4_witness :
    ∃ a, avg_score [5, 5, 5, 5, 5, 1] = Except.ok a ∧ 1 ≤ a ∧ a ≤ 5 :=
  c4_theorem [5, 5, 5, 5, 5, 1] (by decide) (by decide)

/-- C5: looking a level outside [1,5] up in `maturity_scale` fails (the
dict raises KeyError, the concrete form of the spec's ConfigError), and
levels 1..5 map to the fixed labels Initial, Developing, Established,
Advanced, Leading. -/
theorem c5_theorem (lvl : ℤ) (h : lvl < 1 ∨ 5 < lvl) :
    maturity_scale lvl = none ∧
    maturity_scale 1 = some "Initial" ∧
    maturity_scale 2 = some "Developing" ∧
    maturity_scale 3 = some "Established" ∧
    maturity_scale 4 = some "Advanced" ∧
    maturity_scale 5 = some "Leading" := by
  refine ⟨?_, rfl, rfl, rfl, rfl, rfl⟩
  unfold maturity_scale
  split_ifs with h1 h2 h3 h4 h5 <;> first | omega | rfl

theorem c5_witness :
    maturity_scale 6 = none ∧
    maturity_scale 1 = some "Initial" ∧
    maturity_scale 2 = some "Developing" ∧
    maturity_scale 3 = some "Established" ∧
    maturity_scale 4 = some "Advanced" ∧
    maturity_scale 5 = some "Leading" :=
  c5_theorem 6 (Or.inr (by decide))

/-- C6: for the rating sequence [5,5,5,5,5,1] the dimension average is 4.3,
4.3 rounds to the integer 4, and the label is "Advanced". -/
theorem c6_theorem :
    avg_score [5, 5, 5, 5, 5, 1] = Except.ok (43 / 10) ∧
    py_round (43 / 10) = 4 ∧
    label_of (43 / 10) = some "Advanced" := by
  refine ⟨?_, ?_, ?_⟩ <;>
    norm_num [avg_score, label_of, py_round1, py_round, Int.fract,
      maturity_scale]

/-- C7: a history record built with a blank user identifier has the literal
"Anonymous" as its User value, and its fields are exactly Timestamp, User,
one "<Dimension> Score" per dimension in order, and Overall Score. -/
theorem c7_theorem (now : String) (ds : List (String × ℚ)) (overall : ℚ) :
    (data_row now "" ds overall).map Prod.fst =
      "Timestamp" :: "User" ::
        (ds.map (fun p => p.1 ++ " Score") ++ ["Overall Score"]) ∧
    (data_row now "" ds overall)[1]? = some ("User", PyVal.s "Anonymous") := by
  constructor
  · simp [data_row]
  · simp [data_row]

theorem c7_witness :
    (data_row "2025-01-01 00:00:00" "" [("People", 3)] 3).map Prod.fst =
      "Timestamp" :: "User" ::
        ([("People", (3 : ℚ))].map (fun p => p.1 ++ " Score") ++
          ["Overall Score"]) ∧
    (data_row "2025-01-01 00:00:00" "" [("People", 3)] 3)[1]? =
      some ("User", PyVal.s "Anonymous") :=
  c7_theorem "2025-01-01 00:00:00" [("People", 3)] 3

/-- C8, as written, is false of the code: over the empty dimension-score
mapping `plot_radar` plots `[] + [][:1] = []`, whose length 0 is not the
dimension count plus one. -/
theorem c8_counterexample :
    ¬ (plot_radar_values []).length = ([] : List (String × ℚ)).length + 1 := by
  simp [plot_radar_values]

/-- C8 (amended): for every non-empty dimension-score mapping, the sequence
of values plotted by the radar chart has length equal to the number of
dimensions plus one, and its last element equals its first element. -/
theorem c8_theorem (ds : List (String × ℚ)) (hne : ds ≠ []) :
    (plot_radar_values ds).length = ds.length + 1 ∧
    (plot_radar_values ds).getLast? = (plot_radar_values ds).head? := by
  cases ds with
  | nil => exact absurd rfl hne
  | cons p t =>
    unfold plot_radar_values
    constructor
    · simp
    · rw [List.map_cons, List.take_cons, List.take_zero]
      rw [List.getLast?_concat]
      rw [List.cons_append, List.head?_cons]
      norm_num

theorem c8_witness :
    (plot_radar_values [("People", 3)]).length =
      ([("People", (3 : ℚ))] : List (String × ℚ)).length + 1 ∧
    (plot_radar_values [("People", 3)]).getLast? =
      (plot_radar_values [("People", 3)]).head? :=
  c8_theorem [("People", 3)] (by simp)

/-- C9: whenever the summary table is built successfully, it has exactly one
row per dimension and the rows keep the dimensions' insertion order. -/
theorem c9_theorem (ds : List (String × ℚ)) (rows : List (String × ℚ × String))
    (h : score_df ds = some rows) :
    rows.map Prod.fst = ds.map Prod.fst ∧ rows.length = ds.length := by
  induction ds generalizing rows with
  | nil =>
    simp [score_df] at h
    subst h
    simp
  | cons p t ih =>
    cases hl : maturity_scale (py_round p.2) with
    | none => simp [score_df, hl] at h
    | some lbl =>
      cases hs : score_df t with
      | none => simp [score_df, hl, hs] at h
      | some rest =>
        simp [score_df, hl, hs] at h
        subst h
        obtain ⟨h1, h2⟩ := ih rest hs
        simp [h1, h2]

theorem c9_witness :
    [("People", (3 : ℚ), "Established"), ("Data", (5 : ℚ), "Leading")].map
        Prod.fst =
      [("People", (3 : ℚ)), ("Data", (5 : ℚ))].map Prod.fst ∧
    [("People", (3 : ℚ), "Established"), ("Data", (5 : ℚ), "Leading")].length =
      [("People", (3 : ℚ)), ("Data", (5 : ℚ))].length :=
  c9_theorem [("People", 3), ("Data", 5)]
    [("People", 3, "Established"), ("Data", 5, "Leading")]
    (by norm_num [score_df, py_round, Int.fract, maturity_scale])

/-- C10: for non-empty in-range inputs the integer obtained by rounding the
1-decimal dimension average (and likewise the overall average) lies in
{1,...,5}, so the maturity-scale lookup after aggregation always succeeds:
the missing-key branch is unreachable. -/
theorem c10_theorem (scores : List ℤ) (ds : List ℚ)
    (hs : scores ≠ []) (hr : ∀ s ∈ scores, 1 ≤ s ∧ s ≤ 5)
    (hd : ds ≠ []) (hq : ∀ s ∈ ds, 1 ≤ s ∧ s ≤ 5) :
    (∃ a, avg_score scores = Except.ok a ∧
      1 ≤ py_round a ∧ py_round a ≤ 5 ∧ (label_of a).isSome = true) ∧
    (∃ o, overall_score ds = Except.ok o ∧
      1 ≤ py_round o ∧ py_round o ≤ 5 ∧ (label_of o).isSome = true) := by
  constructor
  · obtain ⟨h1, h5⟩ := mean_bounds_int scores hs hr
    obtain ⟨hl, hu⟩ := py_round1_bounds _ h1 h5
    obtain ⟨hil, hiu⟩ := py_round_int_bounds _ hl hu
    exact ⟨_, avg_score_ok scores hs, hil, hiu,
      maturity_scale_isSome _ hil hiu⟩
  · obtain ⟨h1, h5⟩ := mean_bounds_rat ds hd hq
    obtain ⟨hl, hu⟩ := py_round1_bounds _ h1 h5
    obtain ⟨hil, hiu⟩ := py_round_int_bounds _ hl hu
    exact ⟨_, overall_score_ok ds hd, hil, hiu,
      maturity_scale_isSome _ hil hiu⟩

theorem c10_witness :
    (∃ a, avg_score [5, 5, 5, 5, 5, 1] = Except.ok a ∧
      1 ≤ py_round a ∧ py_round a ≤ 5 ∧ (label_of a).isSome = true) ∧
    (∃ o, overall_score [1, 5] = Except.ok o ∧
      1 ≤ py_round o ∧ py_round o ≤ 5 ∧ (label_of o).isSome = true) :=
  c10_theorem [5, 5, 5, 5, 5, 1] [1, 5] (by decide) (by decide) (by simp)
    (by norm_num)
